import Mathlib

/-!
# Verification of the quintain discrete-cycle simulation engine

Shallow embedding of `src/quintain/quintain.py` (Server, Port, Connection,
Client, State, RealTimeServer) and of the concrete controllers in
`src/quintain/controllers.py` (Controller, Recorder, LookupTable with its
`_TimeSeries`), together with theorems settling the specification claims.

Modelling conventions:
* Python's in-place mutation of port objects shared between clients and
  connections is modelled by a heap: a list of `Option V` cells indexed by
  allocation order, with clients and connections holding indices.
* Python exceptions are modelled with `Except`; an operation that raises
  before mutating is an `Except.error` result.
* User-supplied services and controllers (arbitrary Python objects with an
  `execute` method plus private mutable attributes) are modelled by opaque
  values of types `S` and `K` together with interpretation functions passed
  as parameters; an invocation returns the updated strategy value, user
  state, and heap, or raises.
* `next_cycle` additionally emits a trace of invocation events so that the
  execution order mandated by the spec can be stated and proved.
-/

namespace Quintain

/-- The exception classes of `src/quintain/exceptions.py` plus Python's
built-in `TypeError`/`KeyError`, which the engine code can raise via tuple
comparison in `bisect.insort` and via dict subscription. Payloads are the
identifying argument (device/port/key name); human-readable message text is
not modelled. -/
inductive PyErr where
  | duplicateDeviceError (name : String)
  | noSuchDevice (name : String)
  | noSuchPort (name : String)
  | invalidDuration
  | typeError
  | keyError (key : String)
  deriving DecidableEq

/-- The heap of port value cells (`Port.value` for each allocated `Port`),
indexed by allocation order. `none` models Python `None`, the default port
value. Port names are stored in the owning client's port dict. -/
abbrev Heap (V : Type) := List (Option V)

/-- One `Client` (device): `Client.__init__` stores the name, the dict
`{p.name: p for p in ports}` (modelled as an association list from port name
to heap index with Python dict semantics), and the optional controller. -/
structure ClientRec (K : Type) where
  name : String
  ports : List (String × Nat)
  controller : Option K
  deriving DecidableEq

/-- A `Connection`: non-owning references (heap indices) to the sender and
receiver ports. -/
structure Conn where
  sender : Nat
  receiver : Nat
  deriving DecidableEq

/-- The state of a `Server` together with its `State` object:
`_services` (list of `(priority, service)` tuples kept sorted by
`bisect.insort`), `_clients` (dict name -> Client, in insertion order),
`_connections` (append-only list), the port heap, and the `State` fields
`_cycles` and `_user`. -/
structure ServerState (V U K S : Type) where
  services : List (Int × S)
  clients : List (ClientRec K)
  connections : List Conn
  heap : Heap V
  cycles : Nat
  user : U
  deriving DecidableEq

/-- `Server.__init__` with a fresh `State()`: everything empty, cycle
counter 0, user store `u`. -/
def emptyServer {V U K S : Type} (u : U) : ServerState V U K S :=
  { services := [], clients := [], connections := [], heap := [], cycles := 0, user := u }

/-- Invocation events emitted (in order) by one `next_cycle` call: a service
execution (with its priority, pre-invocation strategy value, and the cycle
counter value it observes), a device `fn` call (with the device name and
observed counter), a connection `transfer`, and the final counter increment. -/
inductive Event (S K : Type) where
  | service (priority : Int) (s : S) (seen : Nat)
  | deviceFn (name : String) (seen : Nat)
  | transfer (c : Conn)
  | incr
  deriving DecidableEq

/-- The cycle-counter value observed by an event's invocation (services and
device controllers receive the shared `State`; transfers and the increment
itself observe nothing). -/
def Event.seen {S K : Type} : Event S K → Option Nat
  | .service _ _ n => some n
  | .deviceFn _ n => some n
  | .transfer _ => none
  | .incr => none

/-- Result of one of the loops inside `next_cycle`: the (partially) updated
items, user store, heap, emitted trace, and the first raised exception, if
any. -/
structure LoopRes (α : Type) (V U S K E : Type) where
  items : α
  user : U
  heap : Heap V
  trace : List (Event S K)
  err : Option E

section Engine

variable {V U K S E : Type}
variable (runService : S → List (ClientRec K) → List Conn → Nat → U → Heap V → Except E (S × U × Heap V))
variable (runController : K → List (String × Nat) → Nat → U → Heap V → Except E (K × U × Heap V))

/-- The first loop of `Server.next_cycle`:
`for _, s in reversed(self._services): s.execute(self._clients, self._connections, self._state)`.
The argument list is the reversed services list; each service is executed in
order with the full registry, connection list and shared state; an exception
stops the loop immediately, leaving earlier mutations in place. -/
def svcLoop (clients : List (ClientRec K)) (conns : List Conn) (cycles : Nat) :
    List (Int × S) → U → Heap V → LoopRes (List (Int × S)) V U S K E
  | [], u, h => ⟨[], u, h, [], none⟩
  | (p, s) :: rest, u, h =>
    match runService s clients conns cycles u h with
    | .error e => ⟨(p, s) :: rest, u, h, [Event.service p s cycles], some e⟩
    | .ok (s', u', h') =>
      let r := svcLoop clients conns cycles rest u' h'
      ⟨(p, s') :: r.items, r.user, r.heap, Event.service p s cycles :: r.trace, r.err⟩

/-- The second loop of `Server.next_cycle`:
`for _, c in self._clients.items(): c.fn(self._state)`, where `Client.fn`
returns immediately when the controller is `None` and otherwise calls
`self._controller.execute(self._ports, state)`. -/
def ctlLoop (cycles : Nat) :
    List (ClientRec K) → U → Heap V → LoopRes (List (ClientRec K)) V U S K E
  | [], u, h => ⟨[], u, h, [], none⟩
  | c :: rest, u, h =>
    match c.controller with
    | none =>
      let r := ctlLoop cycles rest u h
      ⟨c :: r.items, r.user, r.heap, Event.deviceFn c.name cycles :: r.trace, r.err⟩
    | some k =>
      match runController k c.ports cycles u h with
      | .error e => ⟨c :: rest, u, h, [Event.deviceFn c.name cycles], some e⟩
      | .ok (k', u', h') =>
        let r := ctlLoop cycles rest u' h'
        ⟨{ c with controller := some k' } :: r.items, r.user, r.heap,
          Event.deviceFn c.name cycles :: r.trace, r.err⟩

/-- The third loop of `Server.next_cycle`:
`for c in self._connections: c.transfer()`, where `Connection.transfer` does
`self.receiver.value = self.sender.value`. Cannot raise. -/
def transferLoop : List Conn → Heap V → Heap V × List (Event S K)
  | [], h => (h, [])
  | c :: rest, h =>
    let h' := h.set c.receiver (h.getD c.sender none)
    let r := transferLoop rest h'
    (r.1, Event.transfer c :: r.2)

/-- `Server.next_cycle`: services (iterating `reversed(self._services)`),
then device controllers in registration order, then connection transfers in
creation order, then `self._state._cycles += 1` as the last statement. An
exception raised by a service or controller propagates immediately: the
remaining steps are skipped, the counter is not incremented, and mutations
already applied stay in place. Returns the resulting server state, the
trace of invocation events, and the propagated exception, if any. -/
def next_cycle (st : ServerState V U K S) :
    ServerState V U K S × List (Event S K) × Option E :=
  let r1 := svcLoop runService st.clients st.connections st.cycles st.services.reverse st.user st.heap
  match r1.err with
  | some e =>
    ({ st with services := r1.items.reverse, user := r1.user, heap := r1.heap }, r1.trace, some e)
  | none =>
    let r2 := ctlLoop runController st.cycles st.clients r1.user r1.heap
    match r2.err with
    | some e =>
      ({ st with
          services := r1.items.reverse
          clients := r2.items
          user := r2.user
          heap := r2.heap }, r1.trace ++ r2.trace, some e)
    | none =>
      let t := transferLoop (S := S) (K := K) st.connections r2.heap
      ({ st with
          services := r1.items.reverse
          clients := r2.items
          user := r2.user
          heap := t.1
          cycles := st.cycles + 1 },
        r1.trace ++ r2.trace ++ t.2 ++ [Event.incr], none)

/-- `n` successive calls of `next_cycle`, keeping only the server state. -/
def iterate : Nat → ServerState V U K S → ServerState V U K S
  | 0, st => st
  | n + 1, st => iterate n (next_cycle runService runController st).1

end Engine

/-- Python dict insertion `d[k] = v`: if the key is present its value is
replaced (keeping the key's position), otherwise the pair is appended. -/
def pyDictInsert {α : Type} (d : List (String × α)) (k : String) (v : α) : List (String × α) :=
  if d.any (fun kv => kv.1 == k) then
    d.map (fun kv => if kv.1 == k then (k, v) else kv)
  else d ++ [(k, v)]

/-- The dict comprehension `{p.name: p for p in ports}` in `Client.__init__`,
where the port objects passed to `add_device` are allocated at heap indices
`base, base + 1, ...` in list order. Duplicate port names follow Python dict
semantics (first position, last value). -/
def buildPortsDict {V : Type} (base : Nat) (ports : List (String × Option V)) : List (String × Nat) :=
  ports.enum.foldl (fun d ip => pyDictInsert d ip.2.1 (base + ip.1)) []

/-- `Server.add_device(name, ports, controller)`: raises
`DuplicateDeviceError` if `name in self._clients`, otherwise constructs a
`Client` and stores it under `name` (a new dict key, hence appended in
registration order). The port objects are freshly allocated heap cells with
the given initial values. -/
def add_device {V U K S : Type} (st : ServerState V U K S) (name : String)
    (ports : List (String × Option V)) (controller : Option K) :
    Except PyErr (ServerState V U K S) :=
  if st.clients.any (fun c => c.name == name) then
    .error (.duplicateDeviceError name)
  else
    .ok { st with
            clients := st.clients ++ [⟨name, buildPortsDict st.heap.length ports, controller⟩]
            heap := st.heap ++ ports.map (fun p => p.2) }

/-- `self._clients.get(device)`: dict lookup in the registry. -/
def lookupClient {V U K S : Type} (st : ServerState V U K S) (name : String) :
    Option (ClientRec K) :=
  st.clients.find? (fun c => c.name == name)

/-- `Server._get_port(device, port)`: looks up the device (raising
`NoSuchDevice` if absent), then the port on that device (raising
`NoSuchPort` if absent), and returns the port (its heap index). -/
def getPort {V U K S : Type} (st : ServerState V U K S) (device port : String) :
    Except PyErr Nat :=
  match lookupClient st device with
  | none => .error (.noSuchDevice device)
  | some d =>
    match d.ports.find? (fun kv => kv.1 == port) with
    | none => .error (.noSuchPort port)
    | some kv => .ok kv.2

/-- `Server.add_connection(sender_device, sender_port, receiver_device,
receiver_port)`: resolves the sender endpoint via `_get_port`, then the
receiver endpoint, then appends `Connection(sender, receiver)`. An exception
from either lookup propagates before any mutation. -/
def add_connection {V U K S : Type} (st : ServerState V U K S)
    (sender_device sender_port receiver_device receiver_port : String) :
    Except PyErr (ServerState V U K S) := do
  let sender ← getPort st sender_device sender_port
  let receiver ← getPort st receiver_device receiver_port
  .ok { st with connections := st.connections ++ [⟨sender, receiver⟩] }

/-- Python comparison `x < y` for `(int, object)` tuples as evaluated inside
`bisect.insort(self._services, (priority, service))`: the first components
are compared first; on equal priorities the comparison falls through to the
service objects, for which `==` is identity and `<` is undefined, so two
distinct services with equal priorities raise `TypeError`. -/
def tupleLt {S : Type} [DecidableEq S] (x y : Int × S) : Except PyErr Bool :=
  if x.1 = y.1 then
    if x.2 = y.2 then .ok false
    else .error .typeError
  else .ok (decide (x.1 < y.1))

/-- The binary-search loop of `bisect.bisect_right(a, x)` (as run by
`bisect.insort`): `while lo < hi: mid = (lo+hi)//2; if x < a[mid]: hi = mid
else: lo = mid+1`, with the fallible tuple comparison. The fuel argument is
a totality device; `hi - lo` shrinks at every step, so any fuel of at least
`hi - lo` yields the loop's result. -/
def bisectRightAux {S : Type} [DecidableEq S] (x : Int × S) (a : List (Int × S)) :
    Nat → Nat → Nat → Except PyErr Nat
  | 0, lo, _ => .ok lo
  | fuel + 1, lo, hi =>
    if lo < hi then
      let mid := (lo + hi) / 2
      match tupleLt x (a.getD mid x) with
      | .error e => .error e
      | .ok true => bisectRightAux x a fuel lo mid
      | .ok false => bisectRightAux x a fuel (mid + 1) hi
    else .ok lo

/-- `bisect.bisect_right(a, x)` over the whole list. -/
def bisectRight {S : Type} [DecidableEq S] (x : Int × S) (a : List (Int × S)) :
    Except PyErr Nat :=
  bisectRightAux x a a.length 0 a.length

/-- `list.insert(i, x)`: insert before position `i` (append when `i` is past
the end). -/
def insertAt {α : Type} : Nat → α → List α → List α
  | 0, x, l => x :: l
  | _ + 1, x, [] => [x]
  | n + 1, x, y :: l => y :: insertAt n x l

/-- `bisect.insort(a, x)`: find the insertion point with `bisect_right`
(which may raise `TypeError` while comparing), then insert. The list is
untouched when the search raises. -/
def insort {S : Type} [DecidableEq S] (a : List (Int × S)) (x : Int × S) :
    Except PyErr (List (Int × S)) :=
  match bisectRight x a with
  | .error e => .error e
  | .ok i => .ok (insertAt i x a)

/-- `Server.add_service(service, priority=0)`:
`bisect.insort(self._services, (priority, service))`. -/
def add_service {V U K S : Type} [DecidableEq S] (st : ServerState V U K S)
    (service : S) (priority : Int) : Except PyErr (ServerState V U K S) :=
  match insort st.services (priority, service) with
  | .error e => .error e
  | .ok l => .ok { st with services := l }

/-- The timing fields of `RealTimeServer` (timestamps and durations are
modelled as exact rationals; the wrapped server and asyncio handles are kept
out of the timing model): `_duration`, `_grain = duration / 1000.0`,
`_precision = grain / 2`, and `_start_time` (set by `start()`). -/
structure RealTimeServer where
  duration : ℚ
  grain : ℚ
  precision : ℚ
  startTime : Option ℚ
  deriving DecidableEq

/-- `RealTimeServer.__init__`: raises `InvalidDuration` if `duration < 0`,
otherwise stores `duration`, `grain = duration / 1000.0`,
`precision = grain / 2`, and `start_time = None`. This is the only place the
duration is validated. -/
def RealTimeServer.init (duration : ℚ) : Except PyErr RealTimeServer :=
  if duration < 0 then .error .invalidDuration
  else .ok { duration := duration
             grain := duration / 1000
             precision := duration / 1000 / 2
             startTime := none }

/-- `RealTimeServer.start()`: captures `self._start_time = self._timer()`
and launches the `serve()` task. It performs no validation and raises
nothing, which the return type (no `Except`) records. -/
def RealTimeServer.start (rt : RealTimeServer) (now : ℚ) : RealTimeServer :=
  { rt with startTime := some now }

/-- One wake-up of the loop body of `RealTimeServer.serve()`:
`current = self._timer(); next_ = start_time + cycles * self._duration;
if current > next_ - self._precision: cycles += 1; self._server.next_cycle()`.
The wrapped server is abstract (`step` is its `next_cycle`); the result is
the new fired-cycle count and the (possibly advanced) server. -/
def RealTimeServer.serveStep {σ : Type} (rt : RealTimeServer) (step : σ → σ)
    (cycles : Nat) (srv : σ) (startTime current : ℚ) : Nat × σ :=
  let next_ := startTime + (cycles : ℚ) * rt.duration
  if current > next_ - rt.precision then (cycles + 1, step srv)
  else (cycles, srv)

/-! ## Concrete controllers from `src/quintain/controllers.py`

These model the bodies of `Controller`, `Recorder`, `LookupTable` and
`_TimeSeries` and the `add_two` controller function from the repository's
test suite, used by the end-to-end scenario claim. -/

/-- The binary-search loop of `bisect.bisect_left(a, x)` on an int list:
`while lo < hi: mid = (lo+hi)//2; if a[mid] < x: lo = mid+1 else: hi = mid`.
Fuel of at least `hi - lo` yields the loop's result. -/
def bisectLeftAux (a : List Int) (t : Int) : Nat → Nat → Nat → Nat
  | 0, lo, _ => lo
  | fuel + 1, lo, hi =>
    if lo < hi then
      let mid := (lo + hi) / 2
      if a.getD mid 0 < t then bisectLeftAux a t fuel (mid + 1) hi
      else bisectLeftAux a t fuel lo mid
    else lo

/-- `bisect.bisect_left(a, t)` over the whole list. -/
def bisectLeft (a : List Int) (t : Int) : Nat :=
  bisectLeftAux a t a.length 0 a.length

/-- `_TimeSeries.get(t)` from `controllers.py`:
`index = bisect_left(self._time, t); if index == len(self._time): index = -1;
return self._values[index]` (Python index `-1` is the last element). The
lists are equal-length and non-empty in every use; out-of-range reads
default to 0. -/
def tsGet (time values : List Int) (t : Int) : Int :=
  let index := bisectLeft time t
  if index = time.length then values.getD (values.length - 1) 0
  else values.getD index 0

/-- The controller objects appearing in the end-to-end scenario, with their
private mutable attributes: `Controller(add_two)` (stateless),
`LookupTable` (its `_values` table and `_cycles` counter), and `Recorder`
(its `_data` dict and `_cycles` counter). -/
inductive CtlK where
  | ctrlAddTwo
  | lookupT (table : List (String × (List Int × List Int))) (cycles : Nat)
  | recorder (data : List (String × List (Option Int))) (cycles : Nat)
  deriving DecidableEq

/-- The loop of `LookupTable.execute`:
`for _, p in ports.items(): p.value = self._values[p.name].get(self._cycles)`
(dict subscription raises `KeyError` for a port not in the table). -/
def lookupExecPorts (table : List (String × (List Int × List Int))) (cyc : Nat) :
    List (String × Nat) → Heap Int → Except PyErr (Heap Int)
  | [], h => .ok h
  | (pname, pid) :: rest, h =>
    match table.find? (fun kv => kv.1 == pname) with
    | none => .error (.keyError pname)
    | some kv =>
      lookupExecPorts table cyc rest (h.set pid (some (tsGet kv.2.1 kv.2.2 (Int.ofNat cyc))))

/-- `Recorder.execute`'s per-port update: `values = self._data.get(p.name)`,
creating an empty list on first use, then `values.append(p.value)` (the list
lives inside the dict, so appending updates the dict in place). -/
def recAppend (data : List (String × List (Option Int))) (k : String) (v : Option Int) :
    List (String × List (Option Int)) :=
  match data.find? (fun kv => kv.1 == k) with
  | none => data ++ [(k, [v])]
  | some kv => data.map (fun e => if e.1 == k then (k, kv.2 ++ [v]) else e)

/-- The loop of `Recorder.execute`: record every port's current value. -/
def recorderExecPorts (data : List (String × List (Option Int))) :
    List (String × Nat) → Heap Int → List (String × List (Option Int))
  | [], _ => data
  | (pname, pid) :: rest, h => recorderExecPorts (recAppend data pname (h.getD pid none)) rest h

/-- The controller bodies as `AbstractController.execute(ports, state)`
intends them (the `state` argument is unused by all three bodies):
`Controller(add_two)` runs `add_two(ports, _)` from the test suite
(`result.value = number.value + 2`, raising `TypeError` when a port is
missing or holds `None`); `LookupTable.execute` writes each port from its
time series and increments its private `_cycles`; `Recorder.execute`
appends each port's value to its `_data` and increments its `_cycles`. -/
def runCtlIntended : CtlK → List (String × Nat) → Nat → Unit → Heap Int →
    Except PyErr (CtlK × Unit × Heap Int)
  | .ctrlAddTwo, ports, _, u, h =>
    match ports.find? (fun kv => kv.1 == "number"), ports.find? (fun kv => kv.1 == "result") with
    | some np, some rp =>
      match h.getD np.2 none with
      | some n => .ok (.ctrlAddTwo, u, h.set rp.2 (some (n + 2)))
      | none => .error .typeError
    | _, _ => .error .typeError
  | .lookupT table cyc, ports, _, u, h =>
    match lookupExecPorts table cyc ports h with
    | .error e => .error e
    | .ok h' => .ok (.lookupT table (cyc + 1), u, h')
  | .recorder data cyc, ports, _, u, h =>
    .ok (.recorder (recorderExecPorts data ports h) (cyc + 1), u, h)

/-- What the source actually does when `Client.fn` runs one of the concrete
controllers: `Client.fn` calls `self._controller.execute(self._ports, state)`
with two arguments, but `Controller.execute`, `Recorder.execute` and
`LookupTable.execute` in `controllers.py` are declared as
`execute(self, ports)` with a single argument, so the call itself raises
`TypeError` before any controller body runs. -/
def runCtlActual : CtlK → List (String × Nat) → Nat → Unit → Heap Int →
    Except PyErr (CtlK × Unit × Heap Int) :=
  fun _ _ _ _ _ => .error .typeError

/-- Degenerate service interpretation for servers whose service list is
empty (the end-to-end scenario registers no services). -/
def rsNoop : Unit → List (ClientRec CtlK) → List Conn → Nat → Unit → Heap Int →
    Except PyErr (Unit × Unit × Heap Int) :=
  fun s _ _ _ u h => .ok (s, u, h)

/-- The end-to-end scenario configuration, as built by the repository's test
`TestServer.test_function`: device `add_two` with ports `number = 0` and
`result = 0` and the `Controller(add_two)` controller; device `generator`
with port `number = 0` and a `LookupTable({"number": ([0, 1, 2], [3, 4, 5])})`
controller; device `logger` with port `result = None` and a `Recorder`
controller; connections `generator.number -> add_two.number` and
`add_two.result -> logger.result`. -/
def scenarioServer : Except PyErr (ServerState Int Unit CtlK Unit) := do
  let st0 : ServerState Int Unit CtlK Unit := emptyServer ()
  let st1 ← add_device st0 "add_two" [("number", some 0), ("result", some 0)] (some .ctrlAddTwo)
  let st2 ← add_device st1 "generator" [("number", some 0)]
    (some (.lookupT [("number", ([0, 1, 2], [3, 4, 5]))] 0))
  let st3 ← add_device st2 "logger" [("result", none)] (some (.recorder [] 0))
  let st4 ← add_connection st3 "generator" "number" "add_two" "number"
  add_connection st4 "add_two" "result" "logger" "result"

/-! ## Concrete instantiations used to exercise the generic engine -/

/-- A service interpretation that leaves everything unchanged (services are
identified by strings). -/
def rsW : String → List (ClientRec Unit) → List Conn → Nat → Unit → Heap Int →
    Except PyErr (String × Unit × Heap Int) :=
  fun s _ _ _ u h => .ok (s, u, h)

/-- A controller interpretation that leaves everything unchanged. -/
def rcW : Unit → List (String × Nat) → Nat → Unit → Heap Int →
    Except PyErr (Unit × Unit × Heap Int) :=
  fun k _ _ u h => .ok (k, u, h)

/-- A small configured server: two services (priorities 0 and 1, list sorted
ascending), two devices (one with a controller, one without), one
connection, counter at 3. -/
def stW : ServerState Int Unit Unit String :=
  { services := [(0, "low"), (1, "high")]
    clients := [⟨"dev1", [("p", 0)], some ()⟩, ⟨"dev2", [("q", 1)], none⟩]
    connections := [⟨0, 1⟩]
    heap := [some 5, none]
    cycles := 3
    user := () }

/-- Two services for the mid-cycle failure example: one writes a port, the
other raises. -/
inductive SvcE where
  | writer
  | boom
  deriving DecidableEq

/-- Interpretation of `SvcE`: `writer` sets port 0 to 42, `boom` raises. -/
def rsE : SvcE → List (ClientRec Unit) → List Conn → Nat → Unit → Heap Int →
    Except PyErr (SvcE × Unit × Heap Int)
  | .writer, _, _, _, u, h => .ok (.writer, u, h.set 0 (some 42))
  | .boom, _, _, _, _, _ => .error .typeError

/-- Controller interpretation for the failure example (no device has a
controller, so it is never called). -/
def rcE : Unit → List (String × Nat) → Nat → Unit → Heap Int →
    Except PyErr (Unit × Unit × Heap Int) :=
  fun k _ _ u h => .ok (k, u, h)

/-- Failure-example server: `boom` at priority 0, `writer` at priority 1
(so the reversed iteration runs `writer` first, then `boom` raises), one
port initialised to 0, counter at 5. -/
def stE : ServerState Int Unit Unit SvcE :=
  { services := [(0, .boom), (1, .writer)]
    clients := []
    connections := []
    heap := [some 0]
    cycles := 5
    user := () }

/-- A server with one device for exercising the wiring error paths: device
`"dev"` with a single port `"p"`. -/
def stC : ServerState Int Unit Unit Unit :=
  { services := []
    clients := [⟨"dev", [("p", 0)], none⟩]
    connections := []
    heap := [some 1]
    cycles := 0
    user := () }

/-- A server holding one service (id 7 at priority 0), for exercising
`add_service` (service objects are modelled by opaque ids). -/
def stSv : ServerState Unit Unit Unit Nat :=
  { services := [(0, 7)], clients := [], connections := [], heap := [], cycles := 0, user := () }

/-! ## Lemmas about the per-cycle loops -/

section EngineLemmas

variable {V U K S E : Type}
variable (rs : S → List (ClientRec K) → List Conn → Nat → U → Heap V → Except E (S × U × Heap V))
variable (rc : K → List (String × Nat) → Nat → U → Heap V → Except E (K × U × Heap V))

theorem svcLoop_trace_of_ok (clients : List (ClientRec K)) (conns : List Conn) (cycles : Nat)
    (l : List (Int × S)) (u : U) (h : Heap V)
    (hok : (svcLoop rs clients conns cycles l u h).err = none) :
    (svcLoop rs clients conns cycles l u h).trace =
      l.map (fun ps => Event.service ps.1 ps.2 cycles) := by
  induction l generalizing u h with
  | nil => simp [svcLoop]
  | cons hd tl ih =>
    obtain ⟨p, s⟩ := hd
    cases hrs : rs s clients conns cycles u h with
    | error e => simp only [svcLoop, hrs] at hok; simp at hok
    | ok v =>
      obtain ⟨s', u', h'⟩ := v
      simp only [svcLoop, hrs] at hok ⊢
      simpa using ih u' h' hok

theorem svcLoop_seen (clients : List (ClientRec K)) (conns : List Conn) (cycles : Nat)
    (l : List (Int × S)) (u : U) (h : Heap V) :
    ∀ ev ∈ (svcLoop rs clients conns cycles l u h).trace, Event.seen ev = some cycles := by
  induction l generalizing u h with
  | nil => simp [svcLoop]
  | cons hd tl ih =>
    obtain ⟨p, s⟩ := hd
    cases hrs : rs s clients conns cycles u h with
    | error e => simp [svcLoop, hrs, Event.seen]
    | ok v =>
      obtain ⟨s', u', h'⟩ := v
      simp only [svcLoop, hrs]
      intro ev hev
      simp only [List.mem_cons] at hev
      rcases hev with rfl | hev
      · rfl
      · exact ih u' h' ev hev

theorem ctlLoop_trace_of_ok (cycles : Nat) (l : List (ClientRec K)) (u : U) (h : Heap V)
    (hok : (ctlLoop (S := S) rc cycles l u h).err = none) :
    (ctlLoop (S := S) rc cycles l u h).trace = l.map (fun c => Event.deviceFn c.name cycles) := by
  induction l generalizing u h with
  | nil => simp [ctlLoop]
  | cons c tl ih =>
    cases hc : c.controller with
    | none =>
      simp only [ctlLoop, hc] at hok ⊢
      simpa using ih u h hok
    | some k =>
      cases hrc : rc k c.ports cycles u h with
      | error e => simp only [ctlLoop, hc, hrc] at hok; simp at hok
      | ok v =>
        obtain ⟨k', u', h'⟩ := v
        simp only [ctlLoop, hc, hrc] at hok ⊢
        simpa using ih u' h' hok

theorem ctlLoop_seen (cycles : Nat) (l : List (ClientRec K)) (u : U) (h : Heap V) :
    ∀ ev ∈ (ctlLoop (S := S) rc cycles l u h).trace, Event.seen ev = some cycles := by
  induction l generalizing u h with
  | nil => intro ev hev; simp [ctlLoop] at hev
  | cons c tl ih =>
    intro ev hev
    cases hc : c.controller with
    | none =>
      simp only [ctlLoop, hc, List.mem_cons] at hev
      rcases hev with rfl | hev
      · rfl
      · exact ih u h ev hev
    | some k =>
      cases hrc : rc k c.ports cycles u h with
      | error e =>
        simp only [ctlLoop, hc, hrc, List.mem_cons] at hev
        rcases hev with rfl | hev
        · rfl
        · simp at hev
      | ok v =>
        obtain ⟨k', u', h'⟩ := v
        simp only [ctlLoop, hc, hrc, List.mem_cons] at hev
        rcases hev with rfl | hev
        · rfl
        · exact ih u' h' ev hev

theorem transferLoop_trace (l : List Conn) (h : Heap V) :
    (transferLoop (S := S) (K := K) l h).2 = l.map (fun c => Event.transfer c) := by
  induction l generalizing h with
  | nil => simp [transferLoop]
  | cons c tl ih => simp [transferLoop, ih]

theorem next_cycle_svc_err (st : ServerState V U K S) (e : E)
    (h1 : (svcLoop rs st.clients st.connections st.cycles st.services.reverse st.user st.heap).err
      = some e) :
    next_cycle rs rc st =
      ({ st with
          services := (svcLoop rs st.clients st.connections st.cycles st.services.reverse st.user
            st.heap).items.reverse
          user := (svcLoop rs st.clients st.connections st.cycles st.services.reverse st.user
            st.heap).user
          heap := (svcLoop rs st.clients st.connections st.cycles st.services.reverse st.user
            st.heap).heap },
        (svcLoop rs st.clients st.connections st.cycles st.services.reverse st.user st.heap).trace,
        some e) := by
  simp only [next_cycle, h1]

theorem next_cycle_ctl_err (st : ServerState V U K S) (e : E)
    (h1 : (svcLoop rs st.clients st.connections st.cycles st.services.reverse st.user st.heap).err
      = none)
    (h2 : (ctlLoop (S := S) rc st.cycles st.clients
        (svcLoop rs st.clients st.connections st.cycles st.services.reverse st.user st.heap).user
        (svcLoop rs st.clients st.connections st.cycles st.services.reverse st.user st.heap).heap).err
      = some e) :
    next_cycle rs rc st =
      ({ st with
          services := (svcLoop rs st.clients st.connections st.cycles st.services.reverse st.user
            st.heap).items.reverse
          clients := (ctlLoop (S := S) rc st.cycles st.clients
            (svcLoop rs st.clients st.connections st.cycles st.services.reverse st.user st.heap).user
            (svcLoop rs st.clients st.connections st.cycles st.services.reverse st.user st.heap).heap).items
          user := (ctlLoop (S := S) rc st.cycles st.clients
            (svcLoop rs st.clients st.connections st.cycles st.services.reverse st.user st.heap).user
            (svcLoop rs st.clients st.connections st.cycles st.services.reverse st.user st.heap).heap).user
          heap := (ctlLoop (S := S) rc st.cycles st.clients
            (svcLoop rs st.clients st.connections st.cycles st.services.reverse st.user st.heap).user
            (svcLoop rs st.clients st.connections st.cycles st.services.reverse st.user st.heap).heap).heap },
        (svcLoop rs st.clients st.connections st.cycles st.services.reverse st.user st.heap).trace ++
          (ctlLoop (S := S) rc st.cycles st.clients
            (svcLoop rs st.clients st.connections st.cycles st.services.reverse st.user st.heap).user
            (svcLoop rs st.clients st.connections st.cycles st.services.reverse st.user st.heap).heap).trace,
        some e) := by
  simp only [next_cycle, h1, h2]

theorem next_cycle_all_ok (st : ServerState V U K S)
    (h1 : (svcLoop rs st.clients st.connections st.cycles st.services.reverse st.user st.heap).err
      = none)
    (h2 : (ctlLoop (S := S) rc st.cycles st.clients
        (svcLoop rs st.clients st.connections st.cycles st.services.reverse st.user st.heap).user
        (svcLoop rs st.clients st.connections st.cycles st.services.reverse st.user st.heap).heap).err
      = none) :
    next_cycle rs rc st =
      ({ st with
          services := (svcLoop rs st.clients st.connections st.cycles st.services.reverse st.user
            st.heap).items.reverse
          clients := (ctlLoop (S := S) rc st.cycles st.clients
            (svcLoop rs st.clients st.connections st.cycles st.services.reverse st.user st.heap).user
            (svcLoop rs st.clients st.connections st.cycles st.services.reverse st.user st.heap).heap).items
          user := (ctlLoop (S := S) rc st.cycles st.clients
            (svcLoop rs st.clients st.connections st.cycles st.services.reverse st.user st.heap).user
            (svcLoop rs st.clients st.connections st.cycles st.services.reverse st.user st.heap).heap).user
          heap := (transferLoop (S := S) (K := K) st.connections (ctlLoop (S := S) rc st.cycles st.clients
            (svcLoop rs st.clients st.connections st.cycles st.services.reverse st.user st.heap).user
            (svcLoop rs st.clients st.connections st.cycles st.services.reverse st.user st.heap).heap).heap).1
          cycles := st.cycles + 1 },
        (svcLoop rs st.clients st.connections st.cycles st.services.reverse st.user st.heap).trace ++
          (ctlLoop (S := S) rc st.cycles st.clients
            (svcLoop rs st.clients st.connections st.cycles st.services.reverse st.user st.heap).user
            (svcLoop rs st.clients st.connections st.cycles st.services.reverse st.user st.heap).heap).trace ++
          (transferLoop (S := S) (K := K) st.connections (ctlLoop (S := S) rc st.cycles st.clients
            (svcLoop rs st.clients st.connections st.cycles st.services.reverse st.user st.heap).user
            (svcLoop rs st.clients st.connections st.cycles st.services.reverse st.user st.heap).heap).heap).2 ++
          [Event.incr],
        none) := by
  simp only [next_cycle, h1, h2]

theorem next_cycle_cycles_of_err (st : ServerState V U K S) (e : E)
    (he : (next_cycle rs rc st).2.2 = some e) :
    (next_cycle rs rc st).1.cycles = st.cycles := by
  cases h1 : (svcLoop rs st.clients st.connections st.cycles st.services.reverse st.user st.heap).err with
  | some e1 => rw [next_cycle_svc_err rs rc st e1 h1]
  | none =>
    cases h2 : (ctlLoop (S := S) rc st.cycles st.clients
        (svcLoop rs st.clients st.connections st.cycles st.services.reverse st.user st.heap).user
        (svcLoop rs st.clients st.connections st.cycles st.services.reverse st.user st.heap).heap).err with
    | some e2 => rw [next_cycle_ctl_err rs rc st e2 h1 h2]
    | none => rw [next_cycle_all_ok rs rc st h1 h2] at he; simp at he

theorem next_cycle_cycles_of_ok (st : ServerState V U K S)
    (hok : (next_cycle rs rc st).2.2 = none) :
    (next_cycle rs rc st).1.cycles = st.cycles + 1 := by
  cases h1 : (svcLoop rs st.clients st.connections st.cycles st.services.reverse st.user st.heap).err with
  | some e1 => rw [next_cycle_svc_err rs rc st e1 h1] at hok; simp at hok
  | none =>
    cases h2 : (ctlLoop (S := S) rc st.cycles st.clients
        (svcLoop rs st.clients st.connections st.cycles st.services.reverse st.user st.heap).user
        (svcLoop rs st.clients st.connections st.cycles st.services.reverse st.user st.heap).heap).err with
    | some e2 => rw [next_cycle_ctl_err rs rc st e2 h1 h2] at hok; simp at hok
    | none => rw [next_cycle_all_ok rs rc st h1 h2]

theorem iterate_empty_cycles (u : U) :
    ∀ (n m : Nat),
      iterate rs rc n { (emptyServer u : ServerState V U K S) with cycles := m } =
        { (emptyServer u : ServerState V U K S) with cycles := m + n }
  | 0, m => by simp [iterate]
  | n + 1, m => by
    rw [iterate]
    have hstep : (next_cycle rs rc { (emptyServer u : ServerState V U K S) with cycles := m }).1
        = { (emptyServer u : ServerState V U K S) with cycles := m + 1 } := rfl
    rw [hstep, iterate_empty_cycles u n (m + 1)]
    have : m + 1 + n = m + (n + 1) := by omega
    rw [this]

end EngineLemmas

/-! ## Claim theorems for the per-cycle execution protocol -/

/-- C1: for every server state, a `next_cycle` call that completes without
an exception performs the per-cycle work in exactly this order: every
registered service (iterating the service list from its highest-priority
end, i.e. in reversed list order — descending priority whenever the list is
priority-sorted, as the final conjunct records), then every device's
controller hook in device-registration order, then every connection's
`transfer` in connection-creation order, and finally the counter increment
as the very last step, so every service and controller invocation observes
the pre-increment counter value `st.cycles`. -/
theorem next_cycle_executes_in_order {V U K S E : Type}
    (rs : S → List (ClientRec K) → List Conn → Nat → U → Heap V → Except E (S × U × Heap V))
    (rc : K → List (String × Nat) → Nat → U → Heap V → Except E (K × U × Heap V))
    (st : ServerState V U K S) (h : (next_cycle rs rc st).2.2 = none) :
    (next_cycle rs rc st).2.1 =
        st.services.reverse.map (fun ps => Event.service ps.1 ps.2 st.cycles)
        ++ st.clients.map (fun c => Event.deviceFn c.name st.cycles)
        ++ st.connections.map (fun c => Event.transfer c)
        ++ [Event.incr]
      ∧ (next_cycle rs rc st).1.cycles = st.cycles + 1
      ∧ (List.Pairwise (fun p q : Int × S => p.1 ≤ q.1) st.services →
          List.Pairwise (fun p q : Int × S => q.1 ≤ p.1) st.services.reverse) := by
  cases h1 : (svcLoop rs st.clients st.connections st.cycles st.services.reverse st.user st.heap).err with
  | some e1 => rw [next_cycle_svc_err rs rc st e1 h1] at h; simp at h
  | none =>
    cases h2 : (ctlLoop (S := S) rc st.cycles st.clients
        (svcLoop rs st.clients st.connections st.cycles st.services.reverse st.user st.heap).user
        (svcLoop rs st.clients st.connections st.cycles st.services.reverse st.user st.heap).heap).err with
    | some e2 => rw [next_cycle_ctl_err rs rc st e2 h1 h2] at h; simp at h
    | none =>
      refine ⟨?_, next_cycle_cycles_of_ok rs rc st h, ?_⟩
      · simp only [next_cycle_all_ok rs rc st h1 h2]
        rw [svcLoop_trace_of_ok rs st.clients st.connections st.cycles st.services.reverse
            st.user st.heap h1,
          ctlLoop_trace_of_ok rc st.cycles st.clients _ _ h2,
          transferLoop_trace]
      · intro hs
        exact List.pairwise_reverse.2 hs

/-- Witness for C1 at the concrete configured server `stW`. -/
theorem next_cycle_executes_in_order_witness :
    (next_cycle rsW rcW stW).2.2 = none ∧
      ((next_cycle rsW rcW stW).2.1 =
          stW.services.reverse.map (fun ps => Event.service ps.1 ps.2 stW.cycles)
          ++ stW.clients.map (fun c => Event.deviceFn c.name stW.cycles)
          ++ stW.connections.map (fun c => Event.transfer c)
          ++ [Event.incr]
        ∧ (next_cycle rsW rcW stW).1.cycles = stW.cycles + 1
        ∧ (List.Pairwise (fun p q : Int × String => p.1 ≤ q.1) stW.services →
            List.Pairwise (fun p q : Int × String => q.1 ≤ p.1) stW.services.reverse)) :=
  ⟨rfl, next_cycle_executes_in_order rsW rcW stW rfl⟩

/-- C3: after `n` calls of `next_cycle` on a freshly constructed server the
counter equals `n`; in general a completed cycle increments the counter by
exactly 1 and a failed cycle leaves it unchanged (so it is monotonically
non-decreasing and never resets); and every invocation during a cycle that
observes the counter at all observes the pre-increment value `st.cycles`. -/
theorem cycle_counter_behaviour {V U K S E : Type}
    (rs : S → List (ClientRec K) → List Conn → Nat → U → Heap V → Except E (S × U × Heap V))
    (rc : K → List (String × Nat) → Nat → U → Heap V → Except E (K × U × Heap V)) :
    (∀ (u : U) (n : Nat), (iterate rs rc n (emptyServer u : ServerState V U K S)).cycles = n) ∧
    (∀ st : ServerState V U K S,
      ((next_cycle rs rc st).2.2 = none → (next_cycle rs rc st).1.cycles = st.cycles + 1) ∧
      (∀ e, (next_cycle rs rc st).2.2 = some e → (next_cycle rs rc st).1.cycles = st.cycles)) ∧
    (∀ st : ServerState V U K S, ∀ ev ∈ (next_cycle rs rc st).2.1,
      Event.seen ev = none ∨ Event.seen ev = some st.cycles) := by
  refine ⟨?_, fun st => ⟨next_cycle_cycles_of_ok rs rc st,
    fun e he => next_cycle_cycles_of_err rs rc st e he⟩, ?_⟩
  · intro u n
    have hiter := iterate_empty_cycles rs rc u n 0
    have : (emptyServer u : ServerState V U K S) =
        { (emptyServer u : ServerState V U K S) with cycles := 0 } := rfl
    rw [this, hiter]
    simp
  · intro st ev hev
    cases h1 : (svcLoop rs st.clients st.connections st.cycles st.services.reverse st.user st.heap).err with
    | some e1 =>
      rw [next_cycle_svc_err rs rc st e1 h1] at hev
      exact Or.inr (svcLoop_seen rs st.clients st.connections st.cycles st.services.reverse
        st.user st.heap ev hev)
    | none =>
      cases h2 : (ctlLoop (S := S) rc st.cycles st.clients
          (svcLoop rs st.clients st.connections st.cycles st.services.reverse st.user st.heap).user
          (svcLoop rs st.clients st.connections st.cycles st.services.reverse st.user st.heap).heap).err with
      | some e2 =>
        rw [next_cycle_ctl_err rs rc st e2 h1 h2] at hev
        rcases List.mem_append.1 hev with hev | hev
        · exact Or.inr (svcLoop_seen rs st.clients st.connections st.cycles st.services.reverse
            st.user st.heap ev hev)
        · exact Or.inr (ctlLoop_seen rc st.cycles st.clients _ _ ev hev)
      | none =>
        rw [next_cycle_all_ok rs rc st h1 h2] at hev
        rcases List.mem_append.1 hev with hev | hev
        · rcases List.mem_append.1 hev with hev | hev
          · rcases List.mem_append.1 hev with hev | hev
            · exact Or.inr (svcLoop_seen rs st.clients st.connections st.cycles
                st.services.reverse st.user st.heap ev hev)
            · exact Or.inr (ctlLoop_seen rc st.cycles st.clients _ _ ev hev)
          · rw [transferLoop_trace] at hev
            rcases List.mem_map.1 hev with ⟨c, _, rfl⟩
            exact Or.inl rfl
        · rcases List.mem_singleton.1 hev with rfl
          exact Or.inl rfl

/-- Witness for C3: three cycles on a fresh server, and one completed cycle
on the configured server `stW`. -/
theorem cycle_counter_behaviour_witness :
    (iterate rsW rcW 3 (emptyServer () : ServerState Int Unit Unit String)).cycles = 3 ∧
    (next_cycle rsW rcW stW).1.cycles = stW.cycles + 1 :=
  ⟨(cycle_counter_behaviour rsW rcW).1 () 3,
    ((cycle_counter_behaviour rsW rcW).2.1 stW).1 rfl⟩

/-- C4: an exception raised by a service or controller during `next_cycle`
propagates out unchanged and leaves the counter not incremented (first
conjunct, for every engine instance); the closed conjuncts exhibit the
absence of rollback on `stE`: the higher-priority `writer` service has
already set the port to 42 when `boom` raises, and `next_cycle` returns
exactly that partially mutated state with the counter still at 5, the
original `TypeError`, and a trace showing `writer` ran before `boom`. -/
theorem next_cycle_error_propagates :
    (∀ (V U K S E : Type)
      (rs : S → List (ClientRec K) → List Conn → Nat → U → Heap V → Except E (S × U × Heap V))
      (rc : K → List (String × Nat) → Nat → U → Heap V → Except E (K × U × Heap V))
      (st : ServerState V U K S) (e : E),
        (next_cycle rs rc st).2.2 = some e → (next_cycle rs rc st).1.cycles = st.cycles) ∧
    stE.heap = [some 0] ∧ stE.cycles = 5 ∧
    next_cycle rsE rcE stE =
      ({ stE with heap := [some 42] },
        [Event.service 1 SvcE.writer 5, Event.service 0 SvcE.boom 5],
        some PyErr.typeError) :=
  ⟨fun _ _ _ _ _ rs rc st e he => next_cycle_cycles_of_err rs rc st e he, rfl, rfl, rfl⟩

/-- Witness for C4's universally quantified conjunct, applied at `stE`. -/
theorem next_cycle_error_propagates_witness :
    (next_cycle rsE rcE stE).1.cycles = stE.cycles :=
  next_cycle_error_propagates.1 Int Unit Unit SvcE PyErr rsE rcE stE PyErr.typeError rfl

/-! ## Claim theorems for registry and wiring -/

theorem find?_append_of_any_false {α : Type} (p : α → Bool) (l₁ l₂ : List α)
    (h : l₁.any p = false) : (l₁ ++ l₂).find? p = l₂.find? p := by
  induction l₁ with
  | nil => rfl
  | cons a l ih =>
    simp only [List.any_cons, Bool.or_eq_false_iff] at h
    simp [List.find?_cons, h.1, ih h.2]

/-- C6: registering a device name a second time fails with
`DuplicateDeviceError` and mutates nothing: after a successful first
registration of `name`, every further `add_device` under the same name
errors, the registry lookup still yields exactly the first registration's
client (its ports built from the first call's port list, its controller the
first call's controller), and the registry is the old one plus exactly that
one entry. -/
theorem add_device_duplicate_rejected {V U K S : Type} (st : ServerState V U K S)
    (name : String) (ports : List (String × Option V)) (ctl : Option K)
    (st1 : ServerState V U K S)
    (h1 : add_device st name ports ctl = .ok st1) :
    (∀ (ports2 : List (String × Option V)) (ctl2 : Option K),
      add_device st1 name ports2 ctl2 = .error (.duplicateDeviceError name)) ∧
    lookupClient st1 name = some ⟨name, buildPortsDict st.heap.length ports, ctl⟩ ∧
    st1.clients = st.clients ++ [⟨name, buildPortsDict st.heap.length ports, ctl⟩] := by
  unfold add_device at h1
  split at h1
  · simp at h1
  · rename_i hany
    injection h1 with h1
    subst h1
    rw [Bool.not_eq_true] at hany
    refine ⟨fun ports2 ctl2 => ?_, ?_, rfl⟩
    · simp [add_device]
    · simp only [lookupClient]
      rw [find?_append_of_any_false _ _ _ hany]
      simp [List.find?_cons]

/-- Witness for C6: registering `"dev"` on the empty server yields `stC`,
after which re-registration fails and the lookup still returns the first
client. -/
theorem add_device_duplicate_rejected_witness :
    add_device stC "dev" [("q", none)] (none : Option Unit)
        = .error (.duplicateDeviceError "dev") ∧
    lookupClient stC "dev" = some ⟨"dev",
      buildPortsDict (emptyServer () : ServerState Int Unit Unit Unit).heap.length
        [("p", some 1)], none⟩ :=
  ⟨(add_device_duplicate_rejected (emptyServer ()) "dev" [("p", some 1)] none stC rfl).1
      [("q", none)] none,
    (add_device_duplicate_rejected (emptyServer ()) "dev" [("p", some 1)] none stC rfl).2.1⟩

theorem getPort_device_missing {V U K S : Type} (st : ServerState V U K S)
    (dev port : String) (h : lookupClient st dev = none) :
    getPort st dev port = .error (.noSuchDevice dev) := by
  simp [getPort, h]

theorem getPort_port_missing {V U K S : Type} (st : ServerState V U K S)
    (dev port : String) (c : ClientRec K) (h : lookupClient st dev = some c)
    (hp : c.ports.find? (fun kv => kv.1 == port) = none) :
    getPort st dev port = .error (.noSuchPort port) := by
  simp [getPort, h, hp]

theorem add_connection_eq {V U K S : Type} (st : ServerState V U K S)
    (sd sp rd rp : String) :
    add_connection st sd sp rd rp =
      (getPort st sd sp).bind (fun sender => (getPort st rd rp).bind (fun receiver =>
        .ok { st with connections := st.connections ++ [⟨sender, receiver⟩] })) := rfl

/-- C7: `add_connection` fails with `NoSuchDevice` when a named device is
unregistered and with `NoSuchPort` when the device exists but the named
port is absent; every failure returns the error without appending a
connection (the only mutation happens in the success case); on success
exactly one connection is appended at the end of the list, so the
connection order is the order of successful calls. -/
theorem add_connection_error_checks {V U K S : Type} (st : ServerState V U K S)
    (sd sp rd rp : String) :
    (lookupClient st sd = none →
      add_connection st sd sp rd rp = .error (.noSuchDevice sd)) ∧
    (∀ c : ClientRec K, lookupClient st sd = some c →
      c.ports.find? (fun kv => kv.1 == sp) = none →
      add_connection st sd sp rd rp = .error (.noSuchPort sp)) ∧
    (∀ si : Nat, getPort st sd sp = .ok si → lookupClient st rd = none →
      add_connection st sd sp rd rp = .error (.noSuchDevice rd)) ∧
    (∀ (si : Nat) (c : ClientRec K), getPort st sd sp = .ok si →
      lookupClient st rd = some c → c.ports.find? (fun kv => kv.1 == rp) = none →
      add_connection st sd sp rd rp = .error (.noSuchPort rp)) ∧
    (∀ si ri : Nat, getPort st sd sp = .ok si → getPort st rd rp = .ok ri →
      add_connection st sd sp rd rp =
        .ok { st with connections := st.connections ++ [⟨si, ri⟩] }) := by
  refine ⟨fun hd => ?_, fun c hc hp => ?_, fun si hs hd => ?_, fun si c hs hc hp => ?_,
    fun si ri hs hr => ?_⟩
  · rw [add_connection_eq, getPort_device_missing st sd sp hd]; rfl
  · rw [add_connection_eq, getPort_port_missing st sd sp c hc hp]; rfl
  · rw [add_connection_eq, hs, getPort_device_missing st rd rp hd]; rfl
  · rw [add_connection_eq, hs, getPort_port_missing st rd rp c hc hp]; rfl
  · rw [add_connection_eq, hs, hr]; rfl

/-- Witness for C7, on the one-device server `stC` (`"dev"` with port
`"p"`): missing sender device, missing sender port, missing receiver
device, missing receiver port, and a successful self-connection. -/
theorem add_connection_error_checks_witness :
    add_connection stC "ghost" "p" "dev" "p" = .error (.noSuchDevice "ghost") ∧
    add_connection stC "dev" "ghostp" "dev" "p" = .error (.noSuchPort "ghostp") ∧
    add_connection stC "dev" "p" "ghost" "p" = .error (.noSuchDevice "ghost") ∧
    add_connection stC "dev" "p" "dev" "ghostp" = .error (.noSuchPort "ghostp") ∧
    add_connection stC "dev" "p" "dev" "p" =
      .ok { stC with connections := stC.connections ++ [⟨0, 0⟩] } :=
  ⟨(add_connection_error_checks stC "ghost" "p" "dev" "p").1 rfl,
    (add_connection_error_checks stC "dev" "ghostp" "dev" "p").2.1 ⟨"dev", [("p", 0)], none⟩
      rfl rfl,
    (add_connection_error_checks stC "dev" "p" "ghost" "p").2.2.1 0 rfl rfl,
    (add_connection_error_checks stC "dev" "p" "dev" "ghostp").2.2.2.1 0
      ⟨"dev", [("p", 0)], none⟩ rfl rfl rfl,
    (add_connection_error_checks stC "dev" "p" "dev" "p").2.2.2.2 0 0 rfl rfl⟩

/-- C10: the sender endpoint is resolved completely before the receiver
endpoint, and within an endpoint the device lookup precedes the port
lookup: when the sender device is unregistered the call fails with
`NoSuchDevice` for the sender even though the receiver device is also
unregistered; when the sender device exists but its port is absent the
call fails with `NoSuchPort` for the sender port even though the receiver
device is unregistered. -/
theorem add_connection_sender_resolved_first {V U K S : Type} (st : ServerState V U K S)
    (sd sp rd rp : String) :
    (lookupClient st sd = none → lookupClient st rd = none →
      add_connection st sd sp rd rp = .error (.noSuchDevice sd)) ∧
    (∀ c : ClientRec K, lookupClient st sd = some c →
      c.ports.find? (fun kv => kv.1 == sp) = none → lookupClient st rd = none →
      add_connection st sd sp rd rp = .error (.noSuchPort sp)) := by
  refine ⟨fun hd _ => ?_, fun c hc hp _ => ?_⟩
  · rw [add_connection_eq, getPort_device_missing st sd sp hd]; rfl
  · rw [add_connection_eq, getPort_port_missing st sd sp c hc hp]; rfl

/-- Witness for C10 on `stC`: both endpoints name unregistered devices, yet
the error names the sender; the sender port is missing and the receiver
device is unregistered, yet the error names the sender port. -/
theorem add_connection_sender_resolved_first_witness :
    add_connection stC "ghostA" "p" "ghostB" "p" = .error (.noSuchDevice "ghostA") ∧
    add_connection stC "dev" "ghostp" "ghostB" "p" = .error (.noSuchPort "ghostp") :=
  ⟨(add_connection_sender_resolved_first stC "ghostA" "p" "ghostB" "p").1 rfl rfl,
    (add_connection_sender_resolved_first stC "dev" "ghostp" "ghostB" "p").2
      ⟨"dev", [("p", 0)], none⟩ rfl rfl rfl⟩

/-! ## Claim theorems for the real-time driver -/

/-- C8: at every wake-up of the `serve()` loop, exactly one `next_cycle` is
triggered on the wrapped server if and only if the current clock reading
satisfies `current > startTime + cycles * d - d / 2000` (the stored
precision being `d / 2000`, half the polling grain `d / 1000`), in which
case the fired-cycle count increases by exactly 1; otherwise the server and
the count are untouched. -/
theorem serve_step_fires_iff (d : ℚ) (rt : RealTimeServer)
    (h : RealTimeServer.init d = .ok rt) (σ : Type) (step : σ → σ)
    (cycles : Nat) (srv : σ) (startTime current : ℚ) :
    (current > startTime + (cycles : ℚ) * d - d / 2000 →
      rt.serveStep step cycles srv startTime current = (cycles + 1, step srv)) ∧
    (¬ current > startTime + (cycles : ℚ) * d - d / 2000 →
      rt.serveStep step cycles srv startTime current = (cycles, srv)) ∧
    rt.precision = d / 2000 ∧ rt.duration = d := by
  have hrt : rt = { duration := d
                    grain := d / 1000
                    precision := d / 1000 / 2
                    startTime := none } := by
    unfold RealTimeServer.init at h
    split at h
    · simp at h
    · injection h with h
      exact h.symm
  subst hrt
  have hprec : (d / 1000 / 2 : ℚ) = d / 2000 := by ring
  refine ⟨fun hgt => ?_, fun hle => ?_, hprec, rfl⟩
  · have hcond : current > startTime + (cycles : ℚ) * d - d / 1000 / 2 := by
      rw [hprec]; exact hgt
    simp [RealTimeServer.serveStep, hcond]
  · have hcond : ¬ current > startTime + (cycles : ℚ) * d - d / 1000 / 2 := by
      rw [hprec]; exact hle
    simp [RealTimeServer.serveStep, hcond]

/-- Witness for C8: duration 1, counting wake-ups on a `Nat` server; at
`startTime = 0`, `current = 1` the first cycle is due and fires. -/
theorem serve_step_fires_iff_witness :
    RealTimeServer.serveStep
        { duration := 1, grain := 1 / 1000, precision := 1 / 1000 / 2, startTime := none }
        Nat.succ 0 (0 : Nat) 0 1 = (1, 1) :=
  (serve_step_fires_iff 1
      { duration := 1, grain := 1 / 1000, precision := 1 / 1000 / 2, startTime := none }
      (by norm_num [RealTimeServer.init]) Nat Nat.succ 0 0 0 1).1 (by norm_num)

/-- C9: a negative frame duration fails at construction with
`InvalidDuration`, for every negative input; a non-negative duration
(including 0) constructs successfully, and `start()` performs no validation
at all — it merely records the start timestamp, so a constructed driver
never raises `InvalidDuration` at `start()`. -/
theorem init_validates_duration_once :
    (∀ d : ℚ, d < 0 → RealTimeServer.init d = .error .invalidDuration) ∧
    (∀ d : ℚ, 0 ≤ d → RealTimeServer.init d =
      .ok { duration := d, grain := d / 1000, precision := d / 1000 / 2, startTime := none }) ∧
    (∀ (rt : RealTimeServer) (now : ℚ),
      RealTimeServer.start rt now = { rt with startTime := some now }) := by
  refine ⟨fun d hd => ?_, fun d hd => ?_, fun rt now => rfl⟩
  · simp [RealTimeServer.init, hd]
  · simp [RealTimeServer.init, not_lt.mpr hd]

/-- Witness for C9 at durations `-1` and `0`, plus a `start()` call. -/
theorem init_validates_duration_once_witness :
    RealTimeServer.init (-1) = .error .invalidDuration ∧
    RealTimeServer.init 0 =
      .ok { duration := 0, grain := 0 / 1000, precision := 0 / 1000 / 2, startTime := none } ∧
    RealTimeServer.start
        { duration := 0, grain := 0 / 1000, precision := 0 / 1000 / 2, startTime := none } 7 =
      { duration := 0, grain := 0 / 1000, precision := 0 / 1000 / 2, startTime := some 7 } :=
  ⟨init_validates_duration_once.1 (-1) (by norm_num),
    init_validates_duration_once.2.1 0 le_rfl,
    init_validates_duration_once.2.2
      { duration := 0, grain := 0 / 1000, precision := 0 / 1000 / 2, startTime := none } 7⟩

/-! ## The end-to-end scenario -/

/-- C5 (code bug): the first conjunct shows that under the controller
contract of `AbstractController.execute(ports, state)` — i.e. with the
controller bodies of `controllers.py` run as `Client.fn` intends — five
cycles of the scenario record exactly `[None, 2, 5, 6, 7]` on the
recorder, with index 0 `None` because the transfer feeding the recorder
runs after the recorder's controller has executed once on the port's
initial value. The remaining conjuncts show what the source as written
does instead: since `Controller.execute`, `Recorder.execute` and
`LookupTable.execute` are declared with a single `ports` parameter while
`Client.fn` passes `(ports, state)`, the very first controller invocation
raises `TypeError`, the call to `next_cycle` propagates it, the recorder
records nothing, and the counter stays at 0. -/
theorem scenario_recorded_sequence :
    (scenarioServer.map (fun st =>
        (iterate rsNoop runCtlIntended 5 st).clients.map (fun c => (c.name, c.controller))) =
      .ok [("add_two", some CtlK.ctrlAddTwo),
        ("generator", some (CtlK.lookupT [("number", ([0, 1, 2], [3, 4, 5]))] 5)),
        ("logger", some (CtlK.recorder [("result", [none, some 2, some 5, some 6, some 7])] 5))]) ∧
    (scenarioServer.map (fun st => (next_cycle rsNoop runCtlActual st).2.2)
      = .ok (some PyErr.typeError)) ∧
    (scenarioServer.map (fun st =>
        ((next_cycle rsNoop runCtlActual st).1.clients.map (fun c => c.controller),
          (next_cycle rsNoop runCtlActual st).1.cycles)) =
      .ok ([some CtlK.ctrlAddTwo, some (CtlK.lookupT [("number", ([0, 1, 2], [3, 4, 5]))] 0),
        some (CtlK.recorder [] 0)], 0)) := ⟨rfl, rfl, rfl⟩

/-! ## Claim theorems for add_service -/

theorem getD_eq_getElem_of_lt {α : Type} (l : List α) (d : α) (i : Nat) (h : i < l.length) :
    l.getD i d = l[i] := by
  rw [List.getD_eq_getElem?_getD, List.getElem?_eq_getElem h]
  rfl

theorem getD_mem_of_lt {α : Type} (l : List α) (d : α) (i : Nat) (h : i < l.length) :
    l.getD i d ∈ l := by
  rw [getD_eq_getElem_of_lt l d i h]
  exact List.getElem_mem h

theorem getD_lt_of_pairwise {S : Type} (a : List (Int × S)) (d : Int × S)
    (ha : List.Pairwise (fun p q : Int × S => p.1 < q.1) a)
    (i j : Nat) (hij : i < j) (hj : j < a.length) :
    (a.getD i d).1 < (a.getD j d).1 := by
  have hi : i < a.length := Nat.lt_trans hij hj
  rw [getD_eq_getElem_of_lt a d i hi, getD_eq_getElem_of_lt a d j hj]
  exact List.pairwise_iff_getElem.1 ha i j hi hj hij

/-- On a list whose priorities are strictly ascending and all differ from
`x`'s priority, `bisect_right`'s loop cannot raise: it returns the unique
index `i` splitting the list into priorities below and above `x.1`. -/
theorem bisectRightAux_fresh {S : Type} [DecidableEq S] (a : List (Int × S)) (x : Int × S)
    (ha : List.Pairwise (fun p q : Int × S => p.1 < q.1) a)
    (hx : ∀ y ∈ a, y.1 ≠ x.1) :
    ∀ (fuel lo hi : Nat), lo ≤ hi → hi ≤ a.length → hi - lo ≤ fuel →
      (∀ j, j < lo → (a.getD j x).1 < x.1) →
      (∀ j, hi ≤ j → j < a.length → x.1 < (a.getD j x).1) →
      ∃ i, bisectRightAux x a fuel lo hi = .ok i ∧ i ≤ a.length ∧
        (∀ j, j < i → (a.getD j x).1 < x.1) ∧
        (∀ j, i ≤ j → j < a.length → x.1 < (a.getD j x).1) := by
  intro fuel
  induction fuel with
  | zero =>
    intro lo hi hlohi hhilen hfuel hlo hhi
    have hlh : lo = hi := by omega
    exact ⟨lo, rfl, by omega, hlo, fun j hj hjlen => hhi j (by omega) hjlen⟩
  | succ fuel ih =>
    intro lo hi hlohi hhilen hfuel hlo hhi
    by_cases hlt : lo < hi
    · have hmidlo : lo ≤ (lo + hi) / 2 := by omega
      have hmidhi : (lo + hi) / 2 < hi := by omega
      have hmidlen : (lo + hi) / 2 < a.length := by omega
      have hne : (a.getD ((lo + hi) / 2) x).1 ≠ x.1 := hx _ (getD_mem_of_lt a x _ hmidlen)
      have htl : tupleLt x (a.getD ((lo + hi) / 2) x)
          = .ok (decide (x.1 < (a.getD ((lo + hi) / 2) x).1)) := by
        unfold tupleLt
        rw [if_neg (fun hh => hne hh.symm)]
      have hstep : bisectRightAux x a (fuel + 1) lo hi
          = match tupleLt x (a.getD ((lo + hi) / 2) x) with
            | .error e => .error e
            | .ok true => bisectRightAux x a fuel lo ((lo + hi) / 2)
            | .ok false => bisectRightAux x a fuel ((lo + hi) / 2 + 1) hi := by
        simp only [bisectRightAux, if_pos hlt]
      by_cases hcmp : x.1 < (a.getD ((lo + hi) / 2) x).1
      · have hhi2 : ∀ j, (lo + hi) / 2 ≤ j → j < a.length → x.1 < (a.getD j x).1 := by
          intro j hj hjlen
          rcases Nat.eq_or_lt_of_le hj with hj | hj
          · rw [← hj]; exact hcmp
          · exact lt_trans hcmp (getD_lt_of_pairwise a x ha _ j hj hjlen)
        obtain ⟨i, heq, hilen, i1, i2⟩ := ih lo ((lo + hi) / 2) hmidlo (by omega)
          (by omega) hlo hhi2
        refine ⟨i, ?_, hilen, i1, i2⟩
        rw [hstep, htl, decide_eq_true hcmp]
        exact heq
      · have hylt : (a.getD ((lo + hi) / 2) x).1 < x.1 :=
          lt_of_le_of_ne (not_lt.mp hcmp) hne
        have hlo2 : ∀ j, j < (lo + hi) / 2 + 1 → (a.getD j x).1 < x.1 := by
          intro j hj
          rcases Nat.lt_succ_iff_lt_or_eq.mp hj with hj | hj
          · exact lt_trans (getD_lt_of_pairwise a x ha j _ hj hmidlen) hylt
          · rw [hj]; exact hylt
        obtain ⟨i, heq, hilen, i1, i2⟩ := ih ((lo + hi) / 2 + 1) hi (by omega) hhilen
          (by omega) hlo2 hhi
        refine ⟨i, ?_, hilen, i1, i2⟩
        rw [hstep, htl, decide_eq_false hcmp]
        exact heq
    · have hsame : bisectRightAux x a (fuel + 1) lo hi = .ok lo := by
        simp [bisectRightAux, hlt]
      have hlh : lo = hi := by omega
      exact ⟨lo, hsame, by omega, hlo, fun j hj hjlen => hhi j (by omega) hjlen⟩

/-- On a list with strictly ascending priorities containing an entry whose
priority equals `x`'s but whose service differs, `bisect_right`'s loop
always reaches that entry and the tuple comparison raises `TypeError`. -/
theorem bisectRightAux_tie {S : Type} [DecidableEq S] (a : List (Int × S)) (x : Int × S)
    (ha : List.Pairwise (fun p q : Int × S => p.1 < q.1) a)
    (k : Nat) (hk : k < a.length)
    (hkp : (a.getD k x).1 = x.1) (hks : (a.getD k x).2 ≠ x.2) :
    ∀ (fuel lo hi : Nat), hi ≤ a.length → hi - lo ≤ fuel → lo ≤ k → k < hi →
      bisectRightAux x a fuel lo hi = .error .typeError := by
  intro fuel
  induction fuel with
  | zero =>
    intro lo hi _ hfuel hlok hkhi
    exact absurd hfuel (by omega)
  | succ fuel ih =>
    intro lo hi hhilen hfuel hlok hkhi
    have hlt : lo < hi := by omega
    have hstep : bisectRightAux x a (fuel + 1) lo hi
        = match tupleLt x (a.getD ((lo + hi) / 2) x) with
          | .error e => .error e
          | .ok true => bisectRightAux x a fuel lo ((lo + hi) / 2)
          | .ok false => bisectRightAux x a fuel ((lo + hi) / 2 + 1) hi := by
      simp only [bisectRightAux, if_pos hlt]
    have hmidlo : lo ≤ (lo + hi) / 2 := by omega
    have hmidhi : (lo + hi) / 2 < hi := by omega
    have hmidlen : (lo + hi) / 2 < a.length := by omega
    by_cases hmk : (lo + hi) / 2 = k
    · have htl : tupleLt x (a.getD ((lo + hi) / 2) x) = .error .typeError := by
        rw [hmk]
        unfold tupleLt
        rw [if_pos hkp.symm, if_neg (fun hh => hks hh.symm)]
      rw [hstep, htl]
    · rcases Nat.lt_or_ge ((lo + hi) / 2) k with hmlt | hmge
      · have hylt : (a.getD ((lo + hi) / 2) x).1 < x.1 := by
          have hlt2 := getD_lt_of_pairwise a x ha ((lo + hi) / 2) k hmlt hk
          rwa [hkp] at hlt2
        have htl : tupleLt x (a.getD ((lo + hi) / 2) x) = .ok false := by
          unfold tupleLt
          rw [if_neg (fun hh => absurd hylt (by rw [hh]; exact lt_irrefl _)),
            decide_eq_false (not_lt.mpr (le_of_lt hylt))]
        rw [hstep, htl]
        exact ih ((lo + hi) / 2 + 1) hi hhilen (by omega) (by omega) hkhi
      · have hmgt : k < (lo + hi) / 2 := lt_of_le_of_ne hmge (Ne.symm hmk)
        have hygt : x.1 < (a.getD ((lo + hi) / 2) x).1 := by
          have hlt2 := getD_lt_of_pairwise a x ha k ((lo + hi) / 2) hmgt hmidlen
          rwa [hkp] at hlt2
        have htl : tupleLt x (a.getD ((lo + hi) / 2) x) = .ok true := by
          unfold tupleLt
          rw [if_neg (fun hh => absurd hygt (by rw [hh]; exact lt_irrefl _)),
            decide_eq_true hygt]
        rw [hstep, htl]
        exact ih lo ((lo + hi) / 2) (by omega) (by omega) hlok hmgt

theorem insertAt_eq_take_drop {α : Type} (x : α) :
    ∀ (n : Nat) (l : List α), insertAt n x l = l.take n ++ x :: l.drop n
  | 0, l => by simp [insertAt]
  | n + 1, [] => by simp [insertAt]
  | n + 1, y :: l => by simp [insertAt, insertAt_eq_take_drop x n l]

theorem insertAt_sorted {S : Type} (a : List (Int × S)) (x : Int × S) (i : Nat)
    (ha : List.Pairwise (fun p q : Int × S => p.1 < q.1) a)
    (hilen : i ≤ a.length)
    (inv1 : ∀ j, j < i → (a.getD j x).1 < x.1)
    (inv2 : ∀ j, i ≤ j → j < a.length → x.1 < (a.getD j x).1) :
    List.Pairwise (fun p q : Int × S => p.1 < q.1) (insertAt i x a) := by
  rw [insertAt_eq_take_drop, List.pairwise_append]
  refine ⟨List.Pairwise.sublist (List.take_sublist i a) ha, ?_, ?_⟩
  · rw [List.pairwise_cons]
    refine ⟨?_, List.Pairwise.sublist (List.drop_sublist i a) ha⟩
    intro y hy
    obtain ⟨m, hm, rfl⟩ := List.getElem_of_mem hy
    have hmlen : i + m < a.length := by
      have hm2 := hm
      rw [List.length_drop] at hm2
      omega
    rw [List.getElem_drop, ← getD_eq_getElem_of_lt a x (i + m) hmlen]
    exact inv2 (i + m) (Nat.le_add_right i m) hmlen
  · intro p hp q hq
    obtain ⟨m, hm, rfl⟩ := List.getElem_of_mem hp
    have hmi : m < i := by
      have hm2 := hm
      rw [List.length_take] at hm2
      omega
    have hmlen : m < a.length := by omega
    rw [List.getElem_take, ← getD_eq_getElem_of_lt a x m hmlen]
    have hpx : (a.getD m x).1 < x.1 := inv1 m hmi
    rcases List.mem_cons.1 hq with rfl | hq
    · exact hpx
    · obtain ⟨n, hn, rfl⟩ := List.getElem_of_mem hq
      have hnlen : i + n < a.length := by
        have hn2 := hn
        rw [List.length_drop] at hn2
        omega
      rw [List.getElem_drop, ← getD_eq_getElem_of_lt a x (i + n) hnlen]
      exact lt_trans hpx (inv2 (i + n) (Nat.le_add_right i n) hnlen)

theorem insort_fresh {S : Type} [DecidableEq S] (a : List (Int × S)) (x : Int × S)
    (ha : List.Pairwise (fun p q : Int × S => p.1 < q.1) a)
    (hx : x.1 ∉ a.map Prod.fst) :
    ∃ l, insort a x = .ok l ∧ List.Pairwise (fun p q : Int × S => p.1 < q.1) l ∧
      l.Perm (x :: a) := by
  have hx' : ∀ y ∈ a, y.1 ≠ x.1 := fun y hy hh =>
    hx (hh ▸ List.mem_map_of_mem Prod.fst hy)
  obtain ⟨i, heq, hilen, inv1, inv2⟩ := bisectRightAux_fresh a x ha hx' a.length 0 a.length
    (Nat.zero_le _) le_rfl (by omega) (fun j hj => absurd hj (Nat.not_lt_zero j))
    (fun j hj hjlen => absurd hjlen (by omega))
  refine ⟨insertAt i x a, ?_, insertAt_sorted a x i ha hilen inv1 inv2, ?_⟩
  · simp [insort, bisectRight, heq]
  · rw [insertAt_eq_take_drop]
    have hperm : List.Perm (a.take i ++ x :: a.drop i) (x :: (a.take i ++ a.drop i)) :=
      List.perm_middle
    rwa [List.take_append_drop] at hperm

theorem insort_tie {S : Type} [DecidableEq S] (a : List (Int × S)) (x : Int × S)
    (ha : List.Pairwise (fun p q : Int × S => p.1 < q.1) a)
    (k : Nat) (hk : k < a.length)
    (hkp : (a.getD k x).1 = x.1) (hks : (a.getD k x).2 ≠ x.2) :
    insort a x = .error .typeError := by
  have herr := bisectRightAux_tie a x ha k hk hkp hks a.length 0 a.length
    le_rfl (by omega) (Nat.zero_le k) hk
  simp [insort, bisectRight, herr]

/-- C2 counterexample: on a fresh server, adding a service (id 7) at
priority 0 succeeds, but adding a second, distinct service (id 8) at the
same priority 0 raises `TypeError`: `bisect.insort` compares the tuples
`(0, service8) < (0, service7)`, the priorities tie, and Python objects
without an ordering cannot be compared. The second call therefore does not
succeed, refuting the claim that every `add_service` call succeeds and that
equal-priority ties are kept in insertion order. -/
theorem add_service_equal_priority_raises :
    (add_service (emptyServer () : ServerState Unit Unit Unit Nat) 7 0).bind
      (fun st1 => add_service st1 8 0) = .error PyErr.typeError := rfl

/-- C2 amended: `add_service` keeps the service list sorted by ascending
priority for every call whose priority differs from all priorities already
in the list (the inserted list is a sorted permutation of the old list plus
the new entry, and nothing else in the server changes); but a call whose
priority ties an existing entry holding a different service raises
`TypeError` (services, being plain Python objects, are unorderable), so
equal-priority insertion does not succeed and no insertion-order tie rule
exists. -/
theorem add_service_amended {V U K S : Type} [DecidableEq S] (st : ServerState V U K S)
    (service : S) (priority : Int)
    (ha : List.Pairwise (fun p q : Int × S => p.1 < q.1) st.services) :
    (priority ∉ st.services.map Prod.fst →
      ∃ st', add_service st service priority = .ok st' ∧
        List.Pairwise (fun p q : Int × S => p.1 < q.1) st'.services ∧
        st'.services.Perm ((priority, service) :: st.services) ∧
        st'.clients = st.clients ∧ st'.connections = st.connections ∧
        st'.heap = st.heap ∧ st'.cycles = st.cycles ∧ st'.user = st.user) ∧
    (∀ k : Nat, k < st.services.length →
      (st.services.getD k (priority, service)).1 = priority →
      (st.services.getD k (priority, service)).2 ≠ service →
      add_service st service priority = .error PyErr.typeError) := by
  constructor
  · intro hp
    obtain ⟨l, heq, hsort, hperm⟩ := insort_fresh st.services (priority, service) ha hp
    exact ⟨{ st with services := l }, by simp [add_service, heq], hsort, hperm,
      rfl, rfl, rfl, rfl, rfl⟩
  · intro k hk hkp hks
    have herr := insort_tie st.services (priority, service) ha k hk hkp hks
    simp [add_service, herr]

/-- Witness for C2's amended theorem on a server holding one service
(id 7, priority 0): inserting id 9 at fresh priority 1 succeeds sorted,
while inserting id 8 at the taken priority 0 raises `TypeError`. -/
theorem add_service_amended_witness :
    (∃ st', add_service stSv 9 1 = .ok st' ∧
      List.Pairwise (fun p q : Int × Nat => p.1 < q.1) st'.services ∧
      st'.services.Perm ((1, 9) :: stSv.services) ∧
      st'.clients = stSv.clients ∧ st'.connections = stSv.connections ∧
      st'.heap = stSv.heap ∧ st'.cycles = stSv.cycles ∧ st'.user = stSv.user) ∧
    add_service stSv 8 0 = .error PyErr.typeError :=
  ⟨(add_service_amended stSv 9 1 (by decide)).1 (by decide),
    (add_service_amended stSv 8 0 (by decide)).2 0 (by decide) (by decide) (by decide)⟩

end Quintain
